import Mathlib

/-!
Shallow embedding of the ledger-consistency engine of a small point-of-sale
and bookkeeping tool (see src/services/debtService.ts,
src/services/inventoryService.ts, the unnamed data-service module holding the
Transaction ledger and bill manager, and src/components/NewSaleForm.tsx).

Modelling conventions:
  - JavaScript numbers that hold amounts, prices, quantities and epoch
    timestamps are modelled as Int (the code only adds, subtracts,
    multiplies and compares them).
  - Date strings are modelled as Int epoch instants; the comparison
    new Date(d) < now becomes d < now.
  - Optional / possibly-undefined values are Option.
  - generateId and Date.now are nondeterministic inputs; each operation
    takes the fresh id and the current instant as explicit arguments.
  - Each localStorage-backed collection lives in an AppState record; an
    operation returns its result together with the successor state and the
    ordered trace of write effects it performed, so cross-entity write
    ordering is observable.
-/

namespace Shop

/-- Whitespace test used by the model of the JavaScript string trim. -/
def isWs (c : Char) : Bool :=
  c == ' ' || c == '\t' || c == '\n' || c == '\r'

/-- Drop leading whitespace characters. -/
def dropLeadingWs : List Char → List Char
  | [] => []
  | c :: cs => if isWs c then dropLeadingWs cs else c :: cs

/-- Model of the JavaScript String.prototype.trim: strip whitespace from both
ends. Defined structurally over the character list so it evaluates in the
kernel. -/
def jsTrim (s : String) : String :=
  ⟨(dropLeadingWs (dropLeadingWs s.data).reverse).reverse⟩

/-- Model of the JavaScript String.prototype.toLowerCase. -/
def jsToLower (s : String) : String :=
  ⟨s.data.map Char.toLower⟩

/-- Model of the JavaScript pattern u?.trim() || cur: an absent or
all-whitespace update leaves the current value. -/
def trimOr (u : Option String) (cur : String) : String :=
  match u with
  | some s => if jsTrim s = "" then cur else jsTrim s
  | none => cur

/-- Model of the JavaScript pattern u?.trim() || undefined: absent or
all-whitespace collapses to undefined. -/
def trimOptClear (u : Option String) : Option String :=
  match u with
  | some s => if jsTrim s = "" then none else some (jsTrim s)
  | none => none

/-- Model of the JavaScript pattern u?.trim() (without the || undefined):
an absent value stays absent, a present value is trimmed even if empty. -/
def trimOpt (u : Option String) : Option String :=
  u.map jsTrim

/-- Model of the JavaScript pattern s || d on an optional string: falsy
(absent or empty) falls back to the default. -/
def jsOr (o : Option String) (d : String) : String :=
  match o with
  | some s => if s = "" then d else s
  | none => d

/-- Is the first character list a prefix of the second. -/
def chPre : List Char → List Char → Bool
  | [], _ => true
  | _ :: _, [] => false
  | a :: as, b :: bs => a == b && chPre as bs

/-- Does the second character list contain the first as a contiguous
subsequence. -/
def chSub (needle : List Char) : List Char → Bool
  | [] => needle.isEmpty
  | b :: bs => chPre needle (b :: bs) || chSub needle bs

/-- Model of the JavaScript String.prototype.includes. -/
def strIncludes (s term : String) : Bool :=
  chSub term.data s.data

/-- Transaction direction, type field of a ledger Transaction. -/
inductive TxType
  | inflow
  | outflow
deriving Repr, DecidableEq

/-- Debt direction, type field of a DebtEntry. -/
inductive DebtType
  | receivable
  | payable
deriving Repr, DecidableEq

/-- Debt lifecycle status. -/
inductive DebtStatus
  | pending
  | paid
  | overdue
deriving Repr, DecidableEq

/-- Recurrence of a Bill. -/
inductive BillFreq
  | once
  | monthly
  | yearly
deriving Repr, DecidableEq

/-- One line of the denormalized items snapshot carried by a sale
Transaction. -/
structure SaleItem where
  productId : String
  productName : String
  quantity : Int
  variantName : Option String
  price : Int
deriving Repr, DecidableEq

/-- A ledger Transaction (append-only cash-flow record). -/
structure Transaction where
  id : String
  type : TxType
  description : String
  amount : Int
  timestamp : Int
  category : Option String
  paymentMethod : Option String
  items : Option (List SaleItem)
deriving Repr, DecidableEq

/-- A purchasable variant of a product with its own stock count. -/
structure ProductVariant where
  id : String
  name : String
  quantity : Int
  sku : Option String
deriving Repr, DecidableEq

/-- A catalog product. -/
structure Product where
  id : String
  name : String
  description : Option String
  image : Option String
  price : Int
  totalQuantity : Int
  hasVariants : Bool
  variants : List ProductVariant
  category : Option String
  createdAt : Int
  updatedAt : Int
deriving Repr, DecidableEq

/-- A receivable or payable obligation. -/
structure DebtEntry where
  id : String
  type : DebtType
  counterparty : String
  amount : Int
  description : String
  dueDate : Int
  status : DebtStatus
  createdAt : Int
  category : Option String
  notes : Option String
  paidAt : Option Int
  linkedTransactionId : Option String
deriving Repr, DecidableEq

/-- A recurring or one-off fixed obligation. -/
structure Bill where
  id : String
  name : String
  amount : Int
  dueDate : Int
  frequency : BillFreq
  category : Option String
  notes : Option String
  isPaid : Bool
  createdAt : Int
deriving Repr, DecidableEq

/-- The four persisted collections. -/
structure AppState where
  products : List Product
  transactions : List Transaction
  debts : List DebtEntry
  bills : List Bill
deriving Repr, DecidableEq

/-- The error kinds the services raise (the code throws Error with the
messages Debt not found, Product not found, Variant not found, Bill not
found, and Debt is already marked as paid). -/
inductive Err
  | notFound
  | alreadyPaid
deriving Repr, DecidableEq

/-- One observable write effect, in execution order. -/
inductive Effect
  | saveProducts (ps : List Product)
  | addTx (t : Transaction)
  | saveDebts (ds : List DebtEntry)
  | saveBills (bs : List Bill)
deriving Repr, DecidableEq

deriving instance DecidableEq for Except

/-- Replace the first element satisfying p by y, as the JavaScript pattern
xs[xs.findIndex(p)] = y does. -/
def replaceFirst (p : α → Bool) (y : α) : List α → List α
  | [] => []
  | x :: xs => if p x then y :: xs else x :: replaceFirst p y xs

/-! ### Transaction ledger (dataService, addTransaction) -/

/-- addTransaction of the data service: appends a new immutable record with a
fresh id and the current timestamp, saves the collection and broadcasts. -/
def addTransaction (st : AppState) (type : TxType) (description : String)
    (amount : Int) (category : Option String) (paymentMethod : Option String)
    (items : Option (List SaleItem)) (freshId : String) (now : Int) :
    Transaction × AppState × List Effect :=
  let newTransaction : Transaction :=
    { id := freshId, type := type, description := description,
      amount := amount, timestamp := now, category := category,
      paymentMethod := paymentMethod, items := items }
  (newTransaction,
   { st with transactions := st.transactions ++ [newTransaction] },
   [Effect.addTx newTransaction])

/-! ### Bill manager (dataService: createBill, updateBill, toggleBillPaid) -/

/-- createBill of the data service. -/
def createBill (st : AppState) (name : String) (amount : Int) (dueDate : Int)
    (frequency : BillFreq) (category : Option String) (notes : Option String)
    (freshId : String) (now : Int) : Bill × AppState × List Effect :=
  let newBill : Bill :=
    { id := freshId, name := jsTrim name, amount := amount, dueDate := dueDate,
      frequency := frequency, category := trimOptClear category,
      notes := trimOptClear notes, isPaid := false, createdAt := now }
  let newBills := st.bills ++ [newBill]
  (newBill, { st with bills := newBills }, [Effect.saveBills newBills])

/-- The partial-fields payload accepted by updateBill
(Partial of Bill minus id and createdAt). -/
structure BillUpdates where
  name : Option String := none
  amount : Option Int := none
  dueDate : Option Int := none
  frequency : Option BillFreq := none
  category : Option String := none
  notes : Option String := none
  isPaid : Option Bool := none
deriving Repr, DecidableEq

/-- updateBill of the data service: spreads the payload over the stored bill,
re-trimming name with fallback and rewriting category and notes from the
payload alone. -/
def updateBill (st : AppState) (billId : String) (u : BillUpdates) :
    Except Err (Bill × AppState × List Effect) :=
  match st.bills.find? (fun b => b.id == billId) with
  | none => .error .notFound
  | some cur =>
    let updatedBill : Bill :=
      { id := cur.id
        name := trimOr u.name cur.name
        amount := u.amount.getD cur.amount
        dueDate := u.dueDate.getD cur.dueDate
        frequency := u.frequency.getD cur.frequency
        category := trimOptClear u.category
        notes := trimOptClear u.notes
        isPaid := u.isPaid.getD cur.isPaid
        createdAt := cur.createdAt }
    let newBills := replaceFirst (fun b => b.id == billId) updatedBill st.bills
    .ok (updatedBill, { st with bills := newBills }, [Effect.saveBills newBills])

/-- toggleBillPaid of the data service: flips isPaid, persists the bills
collection first, and only then, when the new state is paid and the
createTransaction flag is set, appends one outflow transaction. -/
def toggleBillPaid (st : AppState) (billId : String)
    (createTransaction : Bool) (txId : String) (now : Int) :
    Except Err (Bill × AppState × List Effect) :=
  match st.bills.find? (fun b => b.id == billId) with
  | none => .error .notFound
  | some bill =>
    let newPaidStatus := !bill.isPaid
    let newBill : Bill := { bill with isPaid := newPaidStatus }
    let newBills := replaceFirst (fun b => b.id == billId) newBill st.bills
    let st1 : AppState := { st with bills := newBills }
    if newPaidStatus && createTransaction then
      let r := addTransaction st1 .outflow ("Pago: " ++ bill.name) bill.amount
        (some (jsOr bill.category "Gastos Fijos")) none none txId now
      .ok (newBill, r.2.1, Effect.saveBills newBills :: r.2.2)
    else
      .ok (newBill, st1, [Effect.saveBills newBills])

/-! ### Debt manager (debtService) -/

/-- The overdue re-derivation getAllDebts performs on read: a pending debt
whose due date is in the past is reported as overdue. -/
def deriveOverdue (now : Int) (debts : List DebtEntry) : List DebtEntry :=
  debts.map fun debt =>
    if debt.status = .pending ∧ debt.dueDate < now then
      { debt with status := .overdue }
    else debt

/-- The optional filters accepted by getAllDebts. -/
structure DebtFilters where
  type : Option DebtType := none
  status : Option DebtStatus := none
  searchTerm : Option String := none
deriving Repr, DecidableEq

/-- The search-term predicate of getAllDebts. -/
def debtMatchesSearch (d : DebtEntry) (term : String) : Bool :=
  strIncludes (jsToLower d.counterparty) term ||
  strIncludes (jsToLower d.description) term ||
  (match d.category with
   | some c => strIncludes (jsToLower c) term
   | none => false)

/-- Descending order on createdAt, the sort getAllDebts applies. -/
def createdDesc (a b : DebtEntry) : Prop :=
  b.createdAt ≤ a.createdAt

instance : DecidableRel createdDesc := fun a b =>
  inferInstanceAs (Decidable (b.createdAt ≤ a.createdAt))

instance : IsTotal DebtEntry createdDesc :=
  ⟨fun a b => le_total b.createdAt a.createdAt⟩

instance : IsTrans DebtEntry createdDesc :=
  ⟨fun _ _ _ h1 h2 => le_trans h2 h1⟩

/-- getAllDebts of the debt service: re-derives overdue status, applies the
optional type, status and search filters, and sorts by createdAt descending.
It performs no write, which the List to List type makes explicit. -/
def getAllDebts (debts : List DebtEntry) (now : Int) (filters : DebtFilters) :
    List DebtEntry :=
  let d1 := deriveOverdue now debts
  let d2 := match filters.type with
    | some t => d1.filter (fun (d : DebtEntry) => d.type == t)
    | none => d1
  let d3 := match filters.status with
    | some s => d2.filter (fun (d : DebtEntry) => d.status == s)
    | none => d2
  let d4 := match filters.searchTerm with
    | some term =>
      if term = "" then d3
      else d3.filter (fun d => debtMatchesSearch d (jsToLower term))
    | none => d3
  d4.insertionSort createdDesc

/-- createDebt of the debt service: initial status is overdue when the due
date is already past, else pending. -/
def createDebt (debts : List DebtEntry) (type : DebtType)
    (counterparty : String) (amount : Int) (description : String)
    (dueDate : Int) (category : Option String) (notes : Option String)
    (freshId : String) (now : Int) : List DebtEntry × DebtEntry :=
  let newDebt : DebtEntry :=
    { id := freshId, type := type, counterparty := jsTrim counterparty,
      amount := amount, description := jsTrim description, dueDate := dueDate,
      status := if dueDate < now then .overdue else .pending,
      createdAt := now, category := trimOptClear category,
      notes := trimOptClear notes, paidAt := none, linkedTransactionId := none }
  (debts ++ [newDebt], newDebt)

/-- The partial-fields payload accepted by updateDebt (Partial of DebtEntry
minus id, createdAt, linkedTransactionId and paidAt; note that status is a
member of this payload type). -/
structure DebtUpdates where
  type : Option DebtType := none
  counterparty : Option String := none
  amount : Option Int := none
  description : Option String := none
  dueDate : Option Int := none
  status : Option DebtStatus := none
  category : Option String := none
  notes : Option String := none
deriving Repr, DecidableEq

/-- updateDebt of the debt service: spreads the payload over the stored debt
(counterparty and description falling back when absent or blank, category and
notes rewritten from the payload alone), then, when the payload carries a
dueDate and the post-spread status is pending, re-derives the status against
the new due date. -/
def updateDebt (debts : List DebtEntry) (debtId : String) (u : DebtUpdates)
    (now : Int) : Except Err (List DebtEntry × DebtEntry) :=
  match debts.find? (fun d => d.id == debtId) with
  | none => .error .notFound
  | some cur =>
    let base : DebtEntry :=
      { id := cur.id
        type := u.type.getD cur.type
        counterparty := trimOr u.counterparty cur.counterparty
        amount := u.amount.getD cur.amount
        description := trimOr u.description cur.description
        dueDate := u.dueDate.getD cur.dueDate
        status := u.status.getD cur.status
        createdAt := cur.createdAt
        category := trimOptClear u.category
        notes := trimOptClear u.notes
        paidAt := cur.paidAt
        linkedTransactionId := cur.linkedTransactionId }
    let updatedDebt : DebtEntry :=
      match u.dueDate with
      | some newDue =>
        if base.status = .pending then
          { base with status := if newDue < now then .overdue else .pending }
        else base
      | none => base
    .ok (replaceFirst (fun d => d.id == debtId) updatedDebt debts, updatedDebt)

/-- markAsPaid of the debt service: NotFound when the id is absent,
AlreadyPaid when the debt is already paid; otherwise first creates the
corresponding ledger transaction and only then commits the debt as paid with
paidAt and linkedTransactionId set. On the error paths nothing is written. -/
def markAsPaid (st : AppState) (debtId : String) (txId : String) (now : Int) :
    Except Err (DebtEntry × Transaction) × AppState × List Effect :=
  match st.debts.find? (fun d => d.id == debtId) with
  | none => (.error .notFound, st, [])
  | some debt =>
    if debt.status = .paid then
      (.error .alreadyPaid, st, [])
    else
      let transactionType : TxType :=
        if debt.type = .receivable then .inflow else .outflow
      let transactionDescription :=
        if debt.type = .receivable then
          "Cobro: " ++ debt.counterparty ++ " - " ++ debt.description
        else
          "Pago: " ++ debt.counterparty ++ " - " ++ debt.description
      let r := addTransaction st transactionType transactionDescription
        debt.amount debt.category none none txId now
      let updatedDebt : DebtEntry :=
        { debt with
          status := .paid
          paidAt := some now
          linkedTransactionId := some r.1.id }
      let newDebts :=
        replaceFirst (fun d => d.id == debtId) updatedDebt r.2.1.debts
      (.ok (updatedDebt, r.1), { r.2.1 with debts := newDebts },
       r.2.2 ++ [Effect.saveDebts newDebts])

/-! ### Product catalog manager (inventoryService) -/

/-- Sum of variant quantities, the reduce the inventory service performs. -/
def sumQuantities (variants : List ProductVariant) : Int :=
  variants.foldl (fun sum v => sum + v.quantity) 0

/-- calculateTotalQuantity of the inventory service: the variant sum when
hasVariants is set and variants is non-empty, otherwise the standalone
quantity. -/
def calculateTotalQuantity (hasVariants : Bool) (variants : List ProductVariant)
    (standaloneQty : Int) : Int :=
  if hasVariants = true ∧ variants.length > 0 then
    sumQuantities variants
  else standaloneQty

/-- createProduct of the inventory service. The fresh per-variant ids the
code generates are taken as already present on the variants argument. -/
def createProduct (products : List Product) (name : String) (price : Int)
    (description : Option String) (image : Option String)
    (category : Option String) (hasVariants : Bool)
    (variants : List ProductVariant) (standaloneQuantity : Int)
    (freshId : String) (now : Int) : List Product × Product :=
  let totalQuantity := calculateTotalQuantity hasVariants variants standaloneQuantity
  let newProduct : Product :=
    { id := freshId
      name := jsTrim name
      description := trimOpt description
      image := image
      price := price
      totalQuantity := totalQuantity
      hasVariants := hasVariants
      variants := variants
      category := trimOpt category
      createdAt := now
      updatedAt := now }
  (products ++ [newProduct], newProduct)

/-- The partial-fields payload accepted by updateProduct. -/
structure ProductUpdates where
  name : Option String := none
  description : Option String := none
  image : Option String := none
  price : Option Int := none
  category : Option String := none
  hasVariants : Option Bool := none
  variants : Option (List ProductVariant) := none
  standaloneQuantity : Option Int := none
deriving Repr, DecidableEq

/-- updateProduct of the inventory service: spreads the payload over the
stored product, rewrites description and category from the payload alone,
recomputes totalQuantity from the post-update hasVariants, variants and
standalone quantity (the latter falling back to the current totalQuantity
when absent from the payload), and refreshes updatedAt. -/
def updateProduct (products : List Product) (productId : String)
    (u : ProductUpdates) (now : Int) : Except Err (List Product × Product) :=
  match products.find? (fun p => p.id == productId) with
  | none => .error .notFound
  | some currentProduct =>
    let hasVariants := u.hasVariants.getD currentProduct.hasVariants
    let variants := u.variants.getD currentProduct.variants
    let standaloneQty := u.standaloneQuantity.getD currentProduct.totalQuantity
    let updatedProduct : Product :=
      { id := currentProduct.id
        name := trimOr u.name currentProduct.name
        description := trimOpt u.description
        image := match u.image with
          | some i => some i
          | none => currentProduct.image
        price := u.price.getD currentProduct.price
        totalQuantity := calculateTotalQuantity hasVariants variants standaloneQty
        hasVariants := hasVariants
        variants := variants
        category := trimOpt u.category
        createdAt := currentProduct.createdAt
        updatedAt := now }
    .ok (replaceFirst (fun p => p.id == productId) updatedProduct products,
      updatedProduct)

/-- updateVariantQuantity of the inventory service: clamps the new quantity
to a minimum of zero, recomputes totalQuantity as the sum over all variants
regardless of hasVariants, and refreshes updatedAt. -/
def updateVariantQuantity (products : List Product) (productId : String)
    (variantId : String) (newQuantity : Int) (now : Int) :
    Except Err (List Product × Product) :=
  match products.find? (fun p => p.id == productId) with
  | none => .error .notFound
  | some product =>
    match product.variants.find? (fun v => v.id == variantId) with
    | none => .error .notFound
    | some variant =>
      let newVariants := replaceFirst (fun v => v.id == variantId)
        { variant with quantity := max 0 newQuantity } product.variants
      let updatedProduct : Product :=
        { product with
          variants := newVariants
          totalQuantity := sumQuantities newVariants
          updatedAt := now }
      .ok (replaceFirst (fun p => p.id == productId) updatedProduct products,
        updatedProduct)

/-! ### Sale workflow (NewSaleForm.handleSubmit and collaborators) -/

/-- One line of the productQuantities mapping the sale form assembles. -/
structure SaleLine where
  quantity : Int
  selectedVariantId : Option String := none
deriving Repr, DecidableEq

/-- calculateTotal of the sale form: sum of price times quantity over the
line items, looking each product up in the loaded products snapshot. -/
def calculateTotal (products : List Product)
    (productQuantities : List (String × SaleLine)) : Int :=
  productQuantities.foldl
    (fun sum x =>
      match products.find? (fun p => p.id == x.1) with
      | none => sum
      | some product => sum + product.price * x.2.quantity)
    0

/-- The auto-generated sale description: single-item sales read the product
name with an optional quantity suffix, multi-item sales the item count. -/
def saleDescription (products : List Product)
    (productQuantities : List (String × SaleLine)) : String :=
  match productQuantities with
  | [(pid, data)] =>
    let name := match products.find? (fun p => p.id == pid) with
      | some p => p.name
      | none => "undefined"
    "Venta: " ++ name ++
      (if data.quantity > 1 then " x" ++ toString data.quantity else "")
  | _ => "Venta: " ++ toString productQuantities.length ++ " productos"

/-- The denormalized items snapshot the sale form builds: product name, sold
quantity, resolved variant name and unit price at sale time. -/
def saleItems (products : List Product)
    (productQuantities : List (String × SaleLine)) : List SaleItem :=
  productQuantities.filterMap fun x =>
    match products.find? (fun p => p.id == x.1) with
    | none => none
    | some product =>
      some
        { productId := product.id
          productName := product.name
          quantity := x.2.quantity
          variantName := match x.2.selectedVariantId with
            | some vid =>
              (product.variants.find? (fun v => v.id == vid)).map (fun v => v.name)
            | none => none
          price := product.price }

/-- The per-item inventory loop of handleSubmit: for each line item, when a
variant is selected its quantity is set to the snapshot quantity minus the
sold quantity via updateVariantQuantity, otherwise the standalone quantity is
decremented via updateProduct; items whose product or selected variant is
missing from the snapshot are skipped, and a thrown error aborts the rest of
the loop. -/
def processSaleItems (snapshot : List Product)
    (productQuantities : List (String × SaleLine)) (ps : List Product)
    (now : Int) : Except Err (List Product) :=
  match productQuantities with
  | [] => .ok ps
  | (productId, data) :: rest =>
    match snapshot.find? (fun p => p.id == productId) with
    | none => processSaleItems snapshot rest ps now
    | some product =>
      match data.selectedVariantId with
      | some vid =>
        match product.variants.find? (fun v => v.id == vid) with
        | none => processSaleItems snapshot rest ps now
        | some variant =>
          match updateVariantQuantity ps productId vid
              (variant.quantity - data.quantity) now with
          | .error e => .error e
          | .ok r => processSaleItems snapshot rest r.1 now
      | none =>
        match updateProduct ps productId
            { standaloneQuantity := some (product.totalQuantity - data.quantity) }
            now with
        | .error e => .error e
        | .ok r => processSaleItems snapshot rest r.1 now

/-- Modelled from the spec: the parent component receiving the single
onAddTransaction callback of NewSaleForm.handleSubmit is not part of the
provided sources; per spec section 4.2 step 3 it forwards the payload to the
Ledger as one addTransaction call. Everything else is handleSubmit itself:
an empty sale is rejected without effect, each line item updates inventory
sequentially, then the single inflow transaction with the computed total,
description and items snapshot is appended. -/
def completeSale (snapshot : List Product)
    (productQuantities : List (String × SaleLine)) (paymentMethod : String)
    (st : AppState) (txId : String) (now : Int) :
    Except Err (Option Transaction × AppState) :=
  if productQuantities.isEmpty then .ok (none, st)
  else
    match processSaleItems snapshot productQuantities st.products now with
    | .error e => .error e
    | .ok ps =>
      let total := calculateTotal snapshot productQuantities
      let r := addTransaction { st with products := ps } .inflow
        (saleDescription snapshot productQuantities) total none
        (if paymentMethod = "" then none else some paymentMethod)
        (some (saleItems snapshot productQuantities)) txId now
      .ok (some r.1, r.2.1)

/-! ### Helper lemmas about replaceFirst, the find-index-and-assign pattern -/

theorem replaceFirst_find_self {α : Type} {p : α → Bool} {y x : α}
    {l : List α} (hf : l.find? p = some x) (hy : p y = true) :
    (replaceFirst p y l).find? p = some y := by
  induction l with
  | nil => simp at hf
  | cons a l ih =>
    cases ha : p a with
    | true =>
      simp only [replaceFirst, ha, if_true]
      exact List.find?_cons_of_pos _ hy
    | false =>
      rw [List.find?_cons_of_neg _ (by simp [ha])] at hf
      simp only [replaceFirst, ha, if_false, Bool.false_eq_true]
      rw [List.find?_cons_of_neg _ (by simp [ha])]
      exact ih hf

theorem replaceFirst_find_other {α : Type} {p q : α → Bool} {y : α}
    {l : List α} (hpq : ∀ x, p x = true → q x = false) (hy : q y = false) :
    (replaceFirst p y l).find? q = l.find? q := by
  induction l with
  | nil => rfl
  | cons a l ih =>
    cases ha : p a with
    | true =>
      simp only [replaceFirst, ha, if_true]
      rw [List.find?_cons_of_neg _ (by simp [hy]),
        List.find?_cons_of_neg _ (by simp [hpq a ha])]
    | false =>
      simp only [replaceFirst, ha, if_false, Bool.false_eq_true]
      cases hqa : q a with
      | true =>
        rw [List.find?_cons_of_pos _ hqa, List.find?_cons_of_pos _ hqa]
      | false =>
        rw [List.find?_cons_of_neg _ (by simp [hqa]),
          List.find?_cons_of_neg _ (by simp [hqa])]
        exact ih

theorem mem_replaceFirst {α : Type} {p : α → Bool} {y x : α} {l : List α}
    (hf : l.find? p = some x) (hy : p y = true) :
    y ∈ replaceFirst p y l :=
  List.mem_of_find?_eq_some (replaceFirst_find_self hf hy)

/-! ### Claim C9 -/

/-- Claim C9: for every product, variant and input quantity, including
negative inputs, updateVariantQuantity stores max 0 newQuantity as the
quantity of the targeted variant, so the resulting variant quantity is never
negative. -/
theorem updateVariantQuantity_clamps_to_zero (products : List Product)
    (productId variantId : String) (newQuantity now : Int)
    (product : Product) (variant : ProductVariant)
    (hp : products.find? (fun p => p.id == productId) = some product)
    (hv : product.variants.find? (fun v => v.id == variantId) = some variant) :
    ∃ ps upd, updateVariantQuantity products productId variantId newQuantity now
        = .ok (ps, upd) ∧
      upd.variants.find? (fun v => v.id == variantId) =
        some { variant with quantity := max 0 newQuantity } ∧
      0 ≤ ({ variant with quantity := max 0 newQuantity } : ProductVariant).quantity := by
  unfold updateVariantQuantity
  rw [hp]
  dsimp only
  rw [hv]
  dsimp only
  refine ⟨_, _, rfl, ?_, le_max_left 0 newQuantity⟩
  exact replaceFirst_find_self hv (by simpa using List.find?_some hv)

/-! ### Claim C4 -/

/-- Claim C4: markAsPaid on a debt already stored as paid fails with the
AlreadyPaid error, creates no transaction and leaves every collection
unchanged; markAsPaid on an id absent from the collection fails with
NotFound, likewise without any effect. -/
theorem markAsPaid_error_paths (st : AppState) (debtId txId : String)
    (now : Int) :
    (st.debts.find? (fun d => d.id == debtId) = none →
      markAsPaid st debtId txId now = (.error .notFound, st, [])) ∧
    (∀ debt, st.debts.find? (fun d => d.id == debtId) = some debt →
      debt.status = .paid →
      markAsPaid st debtId txId now = (.error .alreadyPaid, st, [])) := by
  constructor
  · intro h
    unfold markAsPaid
    rw [h]
  · intro debt h hs
    unfold markAsPaid
    rw [h]
    simp [hs]

/-! ### Claim C1 -/

/-- Claim C1: markAsPaid on a pending or overdue debt creates exactly one new
Transaction, inflow for receivables and outflow for payables, with amount
equal to the debt amount and the Cobro or Pago description, and only after
that transaction is created commits the debt as paid with paidAt set and
linkedTransactionId equal to the new transaction id: the write trace is the
transaction append followed by the debts save, and the final state holds both
the paid debt and its ledger entry. -/
theorem markAsPaid_success (st : AppState) (debtId txId : String) (now : Int)
    (debt : DebtEntry)
    (hf : st.debts.find? (fun d => d.id == debtId) = some debt)
    (hs : debt.status = .pending ∨ debt.status = .overdue) :
    ∃ upd tx st1,
      markAsPaid st debtId txId now =
        (.ok (upd, tx), st1, [Effect.addTx tx, Effect.saveDebts st1.debts]) ∧
      tx.type = (if debt.type = .receivable then TxType.inflow else TxType.outflow) ∧
      tx.amount = debt.amount ∧
      tx.description = (if debt.type = .receivable
        then "Cobro: " ++ debt.counterparty ++ " - " ++ debt.description
        else "Pago: " ++ debt.counterparty ++ " - " ++ debt.description) ∧
      st1.transactions = st.transactions ++ [tx] ∧
      upd = { debt with
        status := .paid
        paidAt := some now
        linkedTransactionId := some tx.id } ∧
      st1.debts = replaceFirst (fun d => d.id == debtId) upd st.debts ∧
      upd ∈ st1.debts ∧
      st1.products = st.products ∧ st1.bills = st.bills := by
  have hnp : ¬ debt.status = .paid := by
    rcases hs with h | h <;> simp [h]
  unfold markAsPaid addTransaction
  rw [hf]
  dsimp only
  rw [if_neg hnp]
  refine ⟨_, _, _, rfl, rfl, rfl, rfl, rfl, rfl, rfl, ?_, rfl, rfl⟩
  exact mem_replaceFirst hf (by simpa using List.find?_some hf)

/-! ### Claim C7 -/

/-- Claim C7: toggleBillPaid on an existing bill flips isPaid; exactly one
outflow transaction described Pago with the bill name, carrying the bill
category with the Gastos Fijos default, is created when and only when the new
paid state is true and the create-transaction flag is true, and the bills
save precedes the transaction append in the write trace; toggling back to
unpaid creates no transaction. -/
theorem toggleBillPaid_spec (st : AppState) (billId txId : String)
    (flag : Bool) (now : Int) (bill : Bill)
    (hf : st.bills.find? (fun b => b.id == billId) = some bill) :
    ∃ newBill,
      newBill = { bill with isPaid := !bill.isPaid } ∧
      (if (!bill.isPaid) && flag then
        ∃ tx st1,
          toggleBillPaid st billId flag txId now = .ok (newBill, st1,
            [Effect.saveBills st1.bills, Effect.addTx tx]) ∧
          tx.type = .outflow ∧
          tx.description = "Pago: " ++ bill.name ∧
          tx.amount = bill.amount ∧
          tx.category = some (jsOr bill.category "Gastos Fijos") ∧
          st1.bills = replaceFirst (fun b => b.id == billId) newBill st.bills ∧
          st1.transactions = st.transactions ++ [tx]
       else
        toggleBillPaid st billId flag txId now = .ok (newBill,
          { st with bills := replaceFirst (fun b => b.id == billId) newBill st.bills },
          [Effect.saveBills (replaceFirst (fun b => b.id == billId) newBill st.bills)])) := by
  refine ⟨{ bill with isPaid := !bill.isPaid }, rfl, ?_⟩
  cases hcond : (!bill.isPaid && flag) with
  | true =>
    rw [if_pos rfl]
    unfold toggleBillPaid addTransaction
    rw [hf]
    dsimp only
    rw [hcond, if_pos rfl]
    exact ⟨_, _, rfl, rfl, rfl, rfl, rfl, rfl, rfl⟩
  | false =>
    rw [if_neg (by simp)]
    unfold toggleBillPaid
    rw [hf]
    dsimp only
    rw [hcond, if_neg (by simp)]

/-! ### Claim C10 -/

/-- Claim C10: an update whose partial payload omits an optional text field
does not preserve it: updateProduct rewrites description and category from
the payload alone, and updateDebt and updateBill rewrite category and notes
from the payload alone, clearing each to absent on any update that omits
it. -/
theorem omitted_optional_fields_cleared
    (products : List Product) (productId : String) (pu : ProductUpdates)
    (debts : List DebtEntry) (debtId : String) (du : DebtUpdates)
    (st : AppState) (billId : String) (bu : BillUpdates) (now : Int) :
    (pu.description = none → pu.category = none →
      ∀ ps p, updateProduct products productId pu now = .ok (ps, p) →
        p.description = none ∧ p.category = none) ∧
    (du.category = none → du.notes = none →
      ∀ ds d, updateDebt debts debtId du now = .ok (ds, d) →
        d.category = none ∧ d.notes = none) ∧
    (bu.category = none → bu.notes = none →
      ∀ b st1 tr, updateBill st billId bu = .ok (b, st1, tr) →
        b.category = none ∧ b.notes = none) := by
  refine ⟨?_, ?_, ?_⟩
  · intro h1 h2 ps p h
    unfold updateProduct at h
    cases hfp : products.find? (fun p => p.id == productId) with
    | none => rw [hfp] at h; exact absurd h (by simp)
    | some cur =>
      rw [hfp] at h
      simp only [Except.ok.injEq, Prod.mk.injEq] at h
      rw [← h.2]
      exact ⟨by simp [h1, trimOpt], by simp [h2, trimOpt]⟩
  · intro h1 h2 ds d h
    unfold updateDebt at h
    cases hfd : debts.find? (fun d => d.id == debtId) with
    | none => rw [hfd] at h; exact absurd h (by simp)
    | some cur =>
      rw [hfd] at h
      simp only [Except.ok.injEq, Prod.mk.injEq] at h
      rw [← h.2]
      cases hdd : du.dueDate with
      | none => exact ⟨by simp [hdd, h1, trimOptClear], by simp [hdd, h2, trimOptClear]⟩
      | some nd =>
        constructor
        · simp only [hdd]
          split
          · simp [h1, trimOptClear]
          · simp [h1, trimOptClear]
        · simp only [hdd]
          split
          · simp [h2, trimOptClear]
          · simp [h2, trimOptClear]
  · intro h1 h2 b st1 tr h
    unfold updateBill at h
    cases hfb : st.bills.find? (fun b => b.id == billId) with
    | none => rw [hfb] at h; exact absurd h (by simp)
    | some cur =>
      rw [hfb] at h
      simp only [Except.ok.injEq, Prod.mk.injEq] at h
      rw [← h.1]
      exact ⟨by simp [h1, trimOptClear], by simp [h2, trimOptClear]⟩

/-! ### Concrete fixtures used by the witnesses -/

def wVariant : ProductVariant :=
  { id := "v1", name := "S", quantity := 5, sku := none }

def wVariantM : ProductVariant :=
  { id := "v2", name := "M", quantity := 3, sku := none }

def wProduct : Product :=
  { id := "p1", name := "Shirt", description := none, image := none,
    price := 20, totalQuantity := 8, hasVariants := true,
    variants := [wVariant, wVariantM], category := none,
    createdAt := 0, updatedAt := 0 }

def wDebt : DebtEntry :=
  { id := "d1", type := .receivable, counterparty := "Acme", amount := 100,
    description := "invoice", dueDate := 5, status := .pending,
    createdAt := 1, category := none, notes := none, paidAt := none,
    linkedTransactionId := none }

def wPaidDebt : DebtEntry :=
  { wDebt with
    id := "d2"
    status := .paid
    paidAt := some 2
    linkedTransactionId := some "t0" }

def wBill : Bill :=
  { id := "b1", name := "Luz", amount := 30, dueDate := 3,
    frequency := .monthly, category := none, notes := none, isPaid := false,
    createdAt := 0 }

def wState : AppState :=
  { products := [wProduct], transactions := [],
    debts := [wDebt, wPaidDebt], bills := [wBill] }

def cProd : Product :=
  { id := "p9", name := "Mesa", description := some "madera", image := none,
    price := 50, totalQuantity := 4, hasVariants := false, variants := [],
    category := some "Hogar", createdAt := 0, updatedAt := 0 }

def cProdUpd : Product :=
  { cProd with description := none, category := none, updatedAt := 5 }

def cDebt : DebtEntry :=
  { wDebt with id := "d9", category := some "Ventas", notes := some "n" }

def cDebtUpd : DebtEntry :=
  { cDebt with category := none, notes := none }

def cBill : Bill :=
  { wBill with id := "b9", category := some "Luz", notes := some "x" }

def cBillUpd : Bill :=
  { cBill with category := none, notes := none }

def cBillState : AppState :=
  { products := [], transactions := [], debts := [], bills := [cBill] }

/-- Witness for claim C9 at the concrete negative input -7. -/
theorem updateVariantQuantity_clamps_to_zero_witness :
    ∃ ps upd, updateVariantQuantity [wProduct] "p1" "v1" (-7) 9
        = .ok (ps, upd) ∧
      upd.variants.find? (fun v => v.id == "v1") =
        some { wVariant with quantity := max 0 (-7) } ∧
      0 ≤ ({ wVariant with quantity := max 0 (-7) } : ProductVariant).quantity :=
  updateVariantQuantity_clamps_to_zero [wProduct] "p1" "v1" (-7) 9 wProduct
    wVariant (by decide) (by decide)

/-- Witness for claim C4: a missing id and an already-paid debt both fail
without effect on the concrete state. -/
theorem markAsPaid_error_paths_witness :
    markAsPaid wState "zz" "t1" 10 = (.error .notFound, wState, []) ∧
    markAsPaid wState "d2" "t1" 10 = (.error .alreadyPaid, wState, []) :=
  ⟨(markAsPaid_error_paths wState "zz" "t1" 10).1 (by decide),
   (markAsPaid_error_paths wState "d2" "t1" 10).2 wPaidDebt (by decide)
     (by decide)⟩

/-- Witness for claim C1 on a concrete pending receivable. -/
theorem markAsPaid_success_witness :
    ∃ upd tx st1,
      markAsPaid wState "d1" "t1" 10 =
        (.ok (upd, tx), st1, [Effect.addTx tx, Effect.saveDebts st1.debts]) ∧
      tx.type = (if wDebt.type = .receivable then TxType.inflow else TxType.outflow) ∧
      tx.amount = wDebt.amount ∧
      tx.description = (if wDebt.type = .receivable
        then "Cobro: " ++ wDebt.counterparty ++ " - " ++ wDebt.description
        else "Pago: " ++ wDebt.counterparty ++ " - " ++ wDebt.description) ∧
      st1.transactions = wState.transactions ++ [tx] ∧
      upd = { wDebt with
        status := .paid
        paidAt := some 10
        linkedTransactionId := some tx.id } ∧
      st1.debts = replaceFirst (fun d => d.id == "d1") upd wState.debts ∧
      upd ∈ st1.debts ∧
      st1.products = wState.products ∧ st1.bills = wState.bills :=
  markAsPaid_success wState "d1" "t1" 10 wDebt (by decide) (Or.inl (by decide))

/-- Witness for claim C7 on a concrete unpaid bill with the flag set. -/
theorem toggleBillPaid_spec_witness :
    ∃ newBill,
      newBill = { wBill with isPaid := !wBill.isPaid } ∧
      (if (!wBill.isPaid) && true then
        ∃ tx st1,
          toggleBillPaid wState "b1" true "t7" 10 = .ok (newBill, st1,
            [Effect.saveBills st1.bills, Effect.addTx tx]) ∧
          tx.type = .outflow ∧
          tx.description = "Pago: " ++ wBill.name ∧
          tx.amount = wBill.amount ∧
          tx.category = some (jsOr wBill.category "Gastos Fijos") ∧
          st1.bills = replaceFirst (fun b => b.id == "b1") newBill wState.bills ∧
          st1.transactions = wState.transactions ++ [tx]
       else
        toggleBillPaid wState "b1" true "t7" 10 = .ok (newBill,
          { wState with bills := replaceFirst (fun b => b.id == "b1") newBill wState.bills },
          [Effect.saveBills (replaceFirst (fun b => b.id == "b1") newBill wState.bills)])) :=
  toggleBillPaid_spec wState "b1" "t7" true 10 wBill (by decide)

/-- Witness for claim C10: empty payloads clear the stored description,
category and notes fields on concrete entities. -/
theorem omitted_optional_fields_cleared_witness :
    (cProdUpd.description = none ∧ cProdUpd.category = none) ∧
    (cDebtUpd.category = none ∧ cDebtUpd.notes = none) ∧
    (cBillUpd.category = none ∧ cBillUpd.notes = none) :=
  ⟨(omitted_optional_fields_cleared [cProd] "p9" {} [cDebt] "d9" {}
      cBillState "b9" {} 5).1 rfl rfl [cProdUpd] cProdUpd (by decide),
   (omitted_optional_fields_cleared [cProd] "p9" {} [cDebt] "d9" {}
      cBillState "b9" {} 5).2.1 rfl rfl [cDebtUpd] cDebtUpd (by decide),
   (omitted_optional_fields_cleared [cProd] "p9" {} [cDebt] "d9" {}
      cBillState "b9" {} 5).2.2 rfl rfl cBillUpd
      { cBillState with bills := [cBillUpd] }
      [Effect.saveBills [cBillUpd]] (by decide)⟩

/-! ### Claim C5 -/

/-- Counterexample to claim C5 as stated: the updateDebt payload type keeps
status among its updatable fields, so a payload that explicitly sets status
moves a concrete paid debt back to pending. -/
theorem paid_not_terminal_counterexample :
    wPaidDebt.status = .paid ∧
    (updateDebt [wPaidDebt] "d2" { status := some .pending } 10).map
      (fun r => r.2.status) = .ok .pending := by decide

/-- Claim C5 amended: paid is terminal for every Debt Manager operation whose
payload does not explicitly set status: updateDebt with a status-free payload
never moves a paid debt away from paid, markAsPaid on a paid debt fails with
AlreadyPaid leaving the state unchanged, and the getAllDebts derivation
reports paid debts unchanged; only an updateDebt payload that explicitly
sets status can overwrite paid. -/
theorem paid_terminal_amended (debts : List DebtEntry) (debtId : String)
    (u : DebtUpdates) (now : Int) (st : AppState) (txId : String)
    (hu : u.status = none) :
    (∀ cur, debts.find? (fun d => d.id == debtId) = some cur →
      cur.status = .paid →
      ∀ ds d, updateDebt debts debtId u now = .ok (ds, d) →
        d.status = .paid) ∧
    (∀ debt, st.debts.find? (fun d => d.id == debtId) = some debt →
      debt.status = .paid →
      markAsPaid st debtId txId now = (.error .alreadyPaid, st, [])) ∧
    (∀ d ∈ debts, d.status = .paid → d ∈ getAllDebts debts now {}) := by
  refine ⟨?_, ?_, ?_⟩
  · intro cur hfc hp ds d h
    unfold updateDebt at h
    rw [hfc] at h
    dsimp only at h
    cases hdd : u.dueDate with
    | none =>
      rw [hdd] at h
      simp only [Except.ok.injEq, Prod.mk.injEq] at h
      rw [← h.2]
      simp [hu, hp]
    | some nd =>
      rw [hdd] at h
      dsimp only at h
      rw [if_neg (by simp [hu, hp])] at h
      simp only [Except.ok.injEq, Prod.mk.injEq] at h
      rw [← h.2]
      simp [hu, hp]
  · intro debt hfd hp
    unfold markAsPaid
    rw [hfd]
    simp [hp]
  · intro d hd hp
    have h1 : d ∈ deriveOverdue now debts := by
      unfold deriveOverdue
      refine List.mem_map.mpr ⟨d, hd, ?_⟩
      rw [if_neg (by simp [hp])]
    exact ((List.perm_insertionSort createdDesc
      (deriveOverdue now debts)).mem_iff).mpr h1

def wPaidAmountUpd : DebtEntry :=
  { wPaidDebt with amount := 50 }

/-- Witness for the amended claim C5 on concrete inputs. -/
theorem paid_terminal_amended_witness :
    wPaidAmountUpd.status = .paid ∧
    markAsPaid wState "d2" "t9" 10 = (.error .alreadyPaid, wState, []) ∧
    wPaidDebt ∈ getAllDebts [wDebt, wPaidDebt] 10 {} :=
  ⟨(paid_terminal_amended [wPaidDebt] "d2" { amount := some 50 } 10 wState
      "t9" rfl).1 wPaidDebt (by decide) (by decide) [wPaidAmountUpd]
      wPaidAmountUpd (by decide),
   (paid_terminal_amended [wPaidDebt] "d2" { amount := some 50 } 10 wState
      "t9" rfl).2.1 wPaidDebt (by decide) (by decide),
   (paid_terminal_amended [wDebt, wPaidDebt] "d2" { amount := some 50 } 10
      wState "t9" rfl).2.2 wPaidDebt (by decide) (by decide)⟩

/-! ### Claim C8 -/

def oDebt : DebtEntry :=
  { wDebt with id := "d3", status := .overdue, dueDate := 2 }

/-- Counterexample to claim C8 as stated: a payload that sets a future due
date together with an explicit pending status reverts a concrete overdue debt
to pending. -/
theorem overdue_reverted_counterexample :
    oDebt.status = .overdue ∧
    (updateDebt [oDebt] "d3"
        { dueDate := some 100, status := some .pending } 10).map
      (fun r => r.2.status) = .ok .pending := by decide

/-- Claim C8 amended: for payloads that do not explicitly set status, when
updateDebt changes dueDate and the current status is pending the status is
re-derived against the new due date, overdue if past and pending otherwise,
and an overdue debt is never reverted to pending; a payload that explicitly
sets status bypasses this and can revert an overdue debt. -/
theorem updateDebt_rederive_amended (debts : List DebtEntry) (debtId : String)
    (u : DebtUpdates) (now : Int) (cur : DebtEntry)
    (hu : u.status = none)
    (hf : debts.find? (fun d => d.id == debtId) = some cur) :
    (∀ newDue, u.dueDate = some newDue → cur.status = .pending →
      ∀ ds d, updateDebt debts debtId u now = .ok (ds, d) →
        d.status = (if newDue < now then DebtStatus.overdue else .pending)) ∧
    (cur.status = .overdue →
      ∀ ds d, updateDebt debts debtId u now = .ok (ds, d) →
        d.status = .overdue) := by
  constructor
  · intro newDue hdd hp ds d h
    unfold updateDebt at h
    rw [hf] at h
    dsimp only at h
    rw [hdd] at h
    dsimp only at h
    rw [if_pos (by simp [hu, hp])] at h
    simp only [Except.ok.injEq, Prod.mk.injEq] at h
    rw [← h.2]
  · intro hov ds d h
    unfold updateDebt at h
    rw [hf] at h
    dsimp only at h
    cases hdd : u.dueDate with
    | none =>
      rw [hdd] at h
      simp only [Except.ok.injEq, Prod.mk.injEq] at h
      rw [← h.2]
      simp [hu, hov]
    | some nd =>
      rw [hdd] at h
      dsimp only at h
      rw [if_neg (by simp [hu, hov])] at h
      simp only [Except.ok.injEq, Prod.mk.injEq] at h
      rw [← h.2]
      simp [hu, hov]

def wDebtDueUpd : DebtEntry :=
  { wDebt with dueDate := 2, status := .overdue }

def oDebtDueUpd : DebtEntry :=
  { oDebt with dueDate := 100 }

/-- Witness for the amended claim C8: a pending debt given a past due date
becomes overdue, and an overdue debt given a future due date stays
overdue. -/
theorem updateDebt_rederive_amended_witness :
    wDebtDueUpd.status = (if (2 : Int) < 10 then DebtStatus.overdue else .pending) ∧
    oDebtDueUpd.status = .overdue :=
  ⟨(updateDebt_rederive_amended [wDebt] "d1" { dueDate := some 2 } 10 wDebt
      rfl (by decide)).1 2 rfl (by decide) [wDebtDueUpd] wDebtDueUpd (by decide),
   (updateDebt_rederive_amended [oDebt] "d3" { dueDate := some 100 } 10 oDebt
      rfl (by decide)).2 (by decide) [oDebtDueUpd] oDebtDueUpd (by decide)⟩

/-! ### Claim C3 -/

def xVariant : ProductVariant :=
  { id := "v1", name := "S", quantity := 2, sku := none }

/-- Counterexample to claim C3 as stated: a product created with hasVariants
false, a non-empty variants list and standalone quantity 7 stores total 7,
but updateVariantQuantity then recomputes totalQuantity as the variant sum 2
even though hasVariants is still false, so the stored total no longer equals
the last-set standalone quantity. -/
theorem totalQuantity_invariant_counterexample :
    (createProduct [] "A" 10 none none none false [xVariant] 7 "p1" 0).2.totalQuantity = 7 ∧
    (updateVariantQuantity
        (createProduct [] "A" 10 none none none false [xVariant] 7 "p1" 0).1
        "p1" "v1" 2 1).map
      (fun r => (r.2.hasVariants, r.2.totalQuantity)) = .ok (false, 2) ∧
    ((2 : Int) = 7 → False) := by decide

/-- Claim C3 amended: after createProduct, totalQuantity equals the variant
sum when hasVariants is set and variants are non-empty and otherwise the
given standalone quantity; after updateProduct the same invariant holds with
the standalone quantity taken from the payload when present and the prior
totalQuantity otherwise; after updateVariantQuantity totalQuantity equals the
variant sum regardless of hasVariants. -/
theorem totalQuantity_invariant_amended
    (products : List Product) (name : String) (price : Int)
    (description image category : Option String) (hasVariants : Bool)
    (variants : List ProductVariant) (standaloneQuantity : Int)
    (freshId : String) (now : Int) (productId variantId : String)
    (pu : ProductUpdates) (newQuantity : Int) :
    ((createProduct products name price description image category hasVariants
        variants standaloneQuantity freshId now).2.totalQuantity =
      (if hasVariants = true ∧ variants.length > 0 then sumQuantities variants
       else standaloneQuantity)) ∧
    (∀ cur, products.find? (fun p => p.id == productId) = some cur →
      ∀ ps p, updateProduct products productId pu now = .ok (ps, p) →
        p.totalQuantity =
          (if p.hasVariants = true ∧ p.variants.length > 0 then
            sumQuantities p.variants
           else pu.standaloneQuantity.getD cur.totalQuantity)) ∧
    (∀ ps p, updateVariantQuantity products productId variantId newQuantity now
        = .ok (ps, p) → p.totalQuantity = sumQuantities p.variants) := by
  refine ⟨?_, ?_, ?_⟩
  · simp [createProduct, calculateTotalQuantity]
  · intro cur hfc ps p h
    unfold updateProduct at h
    rw [hfc] at h
    dsimp only at h
    simp only [Except.ok.injEq, Prod.mk.injEq] at h
    rw [← h.2]
    simp [calculateTotalQuantity]
  · intro ps p h
    unfold updateVariantQuantity at h
    cases hfp : products.find? (fun p => p.id == productId) with
    | none => rw [hfp] at h; exact absurd h (by simp)
    | some product =>
      rw [hfp] at h
      dsimp only at h
      cases hfv : product.variants.find? (fun v => v.id == variantId) with
      | none => rw [hfv] at h; exact absurd h (by simp)
      | some variant =>
        rw [hfv] at h
        dsimp only at h
        simp only [Except.ok.injEq, Prod.mk.injEq] at h
        rw [← h.2]

def uProdExpected : Product :=
  { wProduct with updatedAt := 5 }

def uVQExpected : Product :=
  { wProduct with
    variants := [{ wVariant with quantity := 4 }, wVariantM]
    totalQuantity := 7
    updatedAt := 5 }

/-- Witness for the amended claim C3 on concrete inputs: a variants-mode
creation, an update that supplies a standalone quantity to a variants-mode
product, and a variant quantity update. -/
theorem totalQuantity_invariant_amended_witness :
    ((createProduct [wProduct] "Shirt" 20 none none none true
        [wVariant, wVariantM] 0 "pX" 5).2.totalQuantity =
      (if (true : Bool) = true ∧ ([wVariant, wVariantM] : List ProductVariant).length > 0
       then sumQuantities [wVariant, wVariantM] else 0)) ∧
    (uProdExpected.totalQuantity =
      (if uProdExpected.hasVariants = true ∧ uProdExpected.variants.length > 0 then
        sumQuantities uProdExpected.variants
       else ({ standaloneQuantity := some 99 } : ProductUpdates).standaloneQuantity.getD
         wProduct.totalQuantity)) ∧
    (uVQExpected.totalQuantity = sumQuantities uVQExpected.variants) :=
  ⟨(totalQuantity_invariant_amended [wProduct] "Shirt" 20 none none none true
      [wVariant, wVariantM] 0 "pX" 5 "p1" "v1" { standaloneQuantity := some 99 }
      4).1,
   (totalQuantity_invariant_amended [wProduct] "Shirt" 20 none none none true
      [wVariant, wVariantM] 0 "pX" 5 "p1" "v1" { standaloneQuantity := some 99 }
      4).2.1 wProduct (by decide) [uProdExpected] uProdExpected (by decide),
   (totalQuantity_invariant_amended [wProduct] "Shirt" 20 none none none true
      [wVariant, wVariantM] 0 "pX" 5 "p1" "v1" { standaloneQuantity := some 99 }
      4).2.2 [uVQExpected] uVQExpected (by decide)⟩

/-! ### Claim C6 -/

theorem deriveOverdue_eq_self_of_mem (now : Int) (debts l : List DebtEntry)
    (hl : ∀ y ∈ l, y ∈ deriveOverdue now debts) :
    deriveOverdue now l = l := by
  unfold deriveOverdue
  conv_rhs => rw [← List.map_id l]
  refine List.map_congr_left ?_
  intro y hy
  rcases List.mem_map.mp (hl y hy) with ⟨d0, _, hstep⟩
  by_cases hc : d0.status = .pending ∧ d0.dueDate < now
  · rw [if_pos hc] at hstep
    rw [id_eq, if_neg]
    rw [← hstep]
    simp
  · rw [if_neg hc] at hstep
    rw [id_eq, if_neg]
    rw [← hstep]
    exact hc

/-- Claim C6: a pending debt whose due date is strictly in the past is
reported as overdue by the unfiltered list without any prior update call, and
the derivation is idempotent: listing the listed result again yields the same
list; getAllDebts is a pure function of the stored collection, so the read
changes nothing. -/
theorem getAllDebts_overdue_derivation (debts : List DebtEntry) (now : Int)
    (d : DebtEntry) (hd : d ∈ debts) (hp : d.status = .pending)
    (hdue : d.dueDate < now) :
    { d with status := DebtStatus.overdue } ∈ getAllDebts debts now {} ∧
    getAllDebts (getAllDebts debts now {}) now {} = getAllDebts debts now {} := by
  have hbase : ∀ l : List DebtEntry,
      getAllDebts l now {} = (deriveOverdue now l).insertionSort createdDesc :=
    fun l => rfl
  constructor
  · rw [hbase]
    refine ((List.perm_insertionSort createdDesc (deriveOverdue now debts)).mem_iff).mpr ?_
    unfold deriveOverdue
    refine List.mem_map.mpr ⟨d, hd, ?_⟩
    rw [if_pos ⟨hp, hdue⟩]
  · rw [hbase, hbase]
    rw [deriveOverdue_eq_self_of_mem now debts
      ((deriveOverdue now debts).insertionSort createdDesc)
      (fun y hy => ((List.perm_insertionSort createdDesc
        (deriveOverdue now debts)).mem_iff).mp hy)]
    exact List.Sorted.insertionSort_eq
      (List.sorted_insertionSort createdDesc (deriveOverdue now debts))

/-! ### Claim C2 -/

/-- The product record updateVariantQuantity stores for product P when the
found variant is v and the requested quantity is nq. -/
def uVQResult (P : Product) (vid : String) (v : ProductVariant)
    (nq now : Int) : Product :=
  { P with
    variants := replaceFirst (fun w => w.id == vid)
      { v with quantity := max 0 nq } P.variants
    totalQuantity := sumQuantities (replaceFirst (fun w => w.id == vid)
      { v with quantity := max 0 nq } P.variants)
    updatedAt := now }

theorem updateVariantQuantity_eq (ps : List Product) (productId vid : String)
    {P : Product} {v : ProductVariant} (nq now : Int)
    (hfe : ps.find? (fun p => p.id == productId) = some P)
    (hfv : P.variants.find? (fun w => w.id == vid) = some v) :
    updateVariantQuantity ps productId vid nq now =
      .ok (replaceFirst (fun p => p.id == productId)
        (uVQResult P vid v nq now) ps, uVQResult P vid v nq now) := by
  unfold updateVariantQuantity
  rw [hfe]
  dsimp only
  rw [hfv]
  rfl

/-- The product record the standalone branch of the sale loop stores: an
updateProduct whose payload carries only standaloneQuantity, which therefore
also clears description and category. -/
def uSaleResult (P : Product) (newStandalone now : Int) : Product :=
  { id := P.id
    name := P.name
    description := none
    image := P.image
    price := P.price
    totalQuantity := calculateTotalQuantity P.hasVariants P.variants newStandalone
    hasVariants := P.hasVariants
    variants := P.variants
    category := none
    createdAt := P.createdAt
    updatedAt := now }

theorem updateProduct_sale_eq (ps : List Product) (productId : String)
    {P : Product} (newStandalone now : Int)
    (hfe : ps.find? (fun p => p.id == productId) = some P) :
    updateProduct ps productId { standaloneQuantity := some newStandalone } now =
      .ok (replaceFirst (fun p => p.id == productId)
        (uSaleResult P newStandalone now) ps, uSaleResult P newStandalone now) := by
  unfold updateProduct
  rw [hfe]
  rfl

theorem find_other_of_update (upd : Product) {ps : List Product}
    {productId k : String} (hne : productId ≠ k) (hid : upd.id = productId) :
    (replaceFirst (fun p => p.id == productId) upd ps).find?
      (fun p => p.id == k) = ps.find? (fun p => p.id == k) := by
  refine replaceFirst_find_other ?_ ?_
  · intro x hx
    have hxid : x.id = productId := by simpa using hx
    simp [hxid, hne]
  · simp [hid, hne]

/-- Validity of one sale line item against the loaded products snapshot: the
product is found under its id, the quantity is positive and within the
available stock of the chosen variant, or of the standalone product when no
variant is selected. -/
def lineOk (snapshot : List Product) (e : Product × SaleLine) : Prop :=
  snapshot.find? (fun p => p.id == e.1.id) = some e.1 ∧
  0 < e.2.quantity ∧
  ((e.2.selectedVariantId = none ∧
      ¬(e.1.hasVariants = true ∧ e.1.variants.length > 0) ∧
      e.2.quantity ≤ e.1.totalQuantity) ∨
   (∃ vid v, e.2.selectedVariantId = some vid ∧
      e.1.variants.find? (fun w => w.id == vid) = some v ∧
      e.2.quantity ≤ v.quantity))

/-- The targeted stock of one line item has been decremented by exactly the
sold quantity in the given products collection. -/
def lineDecremented (ps2 : List Product) (e : Product × SaleLine) : Prop :=
  ∃ p2, ps2.find? (fun p => p.id == e.1.id) = some p2 ∧
    ((e.2.selectedVariantId = none ∧
        p2.totalQuantity = e.1.totalQuantity - e.2.quantity) ∨
     (∃ vid v, e.2.selectedVariantId = some vid ∧
        e.1.variants.find? (fun w => w.id == vid) = some v ∧
        p2.variants.find? (fun w => w.id == vid) =
          some { v with quantity := v.quantity - e.2.quantity }))

theorem processSaleItems_spec (snapshot : List Product) (now : Int)
    (enriched : List (Product × SaleLine)) :
    ∀ ps : List Product,
    (enriched.map (fun e => e.1.id)).Nodup →
    (∀ e ∈ enriched, lineOk snapshot e) →
    (∀ e ∈ enriched, ps.find? (fun p => p.id == e.1.id) = some e.1) →
    ∃ ps2,
      processSaleItems snapshot (enriched.map (fun e => (e.1.id, e.2))) ps now
        = .ok ps2 ∧
      (∀ e ∈ enriched, lineDecremented ps2 e) ∧
      (∀ k : String, (∀ e ∈ enriched, e.1.id ≠ k) →
        ps2.find? (fun p => p.id == k) = ps.find? (fun p => p.id == k)) := by
  induction enriched with
  | nil =>
    intro ps _ _ _
    exact ⟨ps, rfl, by simp, fun k _ => rfl⟩
  | cons e rest ih =>
    intro ps hnd hok hfind
    obtain ⟨hsnap, hqpos, hcase⟩ := hok e (List.mem_cons_self e rest)
    have hfe : ps.find? (fun p => p.id == e.1.id) = some e.1 :=
      hfind e (List.mem_cons_self e rest)
    rw [List.map_cons, List.nodup_cons] at hnd
    have hnotin : e.1.id ∉ rest.map (fun e2 => e2.1.id) := hnd.1
    have hndr : (rest.map (fun e2 => e2.1.id)).Nodup := hnd.2
    have hokr : ∀ e2 ∈ rest, lineOk snapshot e2 :=
      fun e2 he2 => hok e2 (List.mem_cons_of_mem e he2)
    have hner : ∀ e2 ∈ rest, e.1.id ≠ e2.1.id := by
      intro e2 he2 hcontra
      exact hnotin (by rw [hcontra]; exact List.mem_map_of_mem _ he2)
    rcases hcase with ⟨hsel, hnv, hle⟩ | ⟨vid, v, hsel, hfv, hle⟩
    · -- standalone branch
      have hstep := updateProduct_sale_eq ps e.1.id
        (e.1.totalQuantity - e.2.quantity) now hfe
      have hfindr : ∀ e2 ∈ rest,
          (replaceFirst (fun p => p.id == e.1.id)
            (uSaleResult e.1 (e.1.totalQuantity - e.2.quantity) now) ps).find?
            (fun p => p.id == e2.1.id) = some e2.1 := by
        intro e2 he2
        rw [find_other_of_update
          (uSaleResult e.1 (e.1.totalQuantity - e.2.quantity) now)
          (hner e2 he2) rfl]
        exact hfind e2 (List.mem_cons_of_mem e he2)
      obtain ⟨ps2, heq2, hdec2, hframe2⟩ :=
        ih (replaceFirst (fun p => p.id == e.1.id)
          (uSaleResult e.1 (e.1.totalQuantity - e.2.quantity) now) ps)
          hndr hokr hfindr
      have hheadfind : ps2.find? (fun p => p.id == e.1.id) =
          some (uSaleResult e.1 (e.1.totalQuantity - e.2.quantity) now) := by
        rw [hframe2 e.1.id (fun e3 he3 => (hner e3 he3).symm)]
        exact replaceFirst_find_self hfe (by simp [uSaleResult])
      have hheaddec : lineDecremented ps2 e := by
        refine ⟨uSaleResult e.1 (e.1.totalQuantity - e.2.quantity) now,
          hheadfind, Or.inl ⟨hsel, ?_⟩⟩
        show calculateTotalQuantity e.1.hasVariants e.1.variants
          (e.1.totalQuantity - e.2.quantity) = e.1.totalQuantity - e.2.quantity
        unfold calculateTotalQuantity
        rw [if_neg hnv]
      refine ⟨ps2, ?_, ?_, ?_⟩
      · rw [List.map_cons]
        unfold processSaleItems
        simp only [hsnap, hsel, hstep]
        exact heq2
      · intro e2 he2
        rcases List.mem_cons.mp he2 with rfl | he2
        · exact hheaddec
        · exact hdec2 e2 he2
      · intro k hk
        rw [hframe2 k (fun e2 he2 => hk e2 (List.mem_cons_of_mem e he2))]
        exact find_other_of_update
          (uSaleResult e.1 (e.1.totalQuantity - e.2.quantity) now)
          (hk e (List.mem_cons_self e rest)) rfl
    · -- variant branch
      have hmax : max 0 (v.quantity - e.2.quantity) = v.quantity - e.2.quantity :=
        max_eq_right (by omega)
      have hstep := updateVariantQuantity_eq ps e.1.id vid
        (v.quantity - e.2.quantity) now hfe hfv
      have hfindr : ∀ e2 ∈ rest,
          (replaceFirst (fun p => p.id == e.1.id)
            (uVQResult e.1 vid v (v.quantity - e.2.quantity) now) ps).find?
            (fun p => p.id == e2.1.id) = some e2.1 := by
        intro e2 he2
        rw [find_other_of_update
          (uVQResult e.1 vid v (v.quantity - e.2.quantity) now)
          (hner e2 he2) rfl]
        exact hfind e2 (List.mem_cons_of_mem e he2)
      obtain ⟨ps2, heq2, hdec2, hframe2⟩ :=
        ih (replaceFirst (fun p => p.id == e.1.id)
          (uVQResult e.1 vid v (v.quantity - e.2.quantity) now) ps)
          hndr hokr hfindr
      have hheadfind : ps2.find? (fun p => p.id == e.1.id) =
          some (uVQResult e.1 vid v (v.quantity - e.2.quantity) now) := by
        rw [hframe2 e.1.id (fun e3 he3 => (hner e3 he3).symm)]
        exact replaceFirst_find_self hfe (by simp [uVQResult])
      have hheaddec : lineDecremented ps2 e := by
        refine ⟨uVQResult e.1 vid v (v.quantity - e.2.quantity) now,
          hheadfind, Or.inr ⟨vid, v, hsel, hfv, ?_⟩⟩
        show (replaceFirst (fun w => w.id == vid)
          { v with quantity := max 0 (v.quantity - e.2.quantity) }
          e.1.variants).find? (fun w => w.id == vid) =
          some { v with quantity := v.quantity - e.2.quantity }
        rw [replaceFirst_find_self hfv (by simpa using List.find?_some hfv)]
        rw [hmax]
      refine ⟨ps2, ?_, ?_, ?_⟩
      · rw [List.map_cons]
        unfold processSaleItems
        simp only [hsnap, hsel, hfv, hstep]
        exact heq2
      · intro e2 he2
        rcases List.mem_cons.mp he2 with rfl | he2
        · exact hheaddec
        · exact hdec2 e2 he2
      · intro k hk
        rw [hframe2 k (fun e2 he2 => hk e2 (List.mem_cons_of_mem e he2))]
        exact find_other_of_update
          (uVQResult e.1 vid v (v.quantity - e.2.quantity) now)
          (hk e (List.mem_cons_self e rest)) rfl

theorem calculateTotal_eq (snapshot : List Product)
    (enriched : List (Product × SaleLine))
    (hfind : ∀ e ∈ enriched, snapshot.find? (fun p => p.id == e.1.id) = some e.1) :
    calculateTotal snapshot (enriched.map (fun e => (e.1.id, e.2))) =
      (enriched.map (fun e => e.1.price * e.2.quantity)).sum := by
  suffices h : ∀ (l : List (Product × SaleLine)) (init : Int),
      (∀ e ∈ l, snapshot.find? (fun p => p.id == e.1.id) = some e.1) →
      List.foldl
        (fun sum x =>
          match snapshot.find? (fun p => p.id == x.1) with
          | none => sum
          | some product => sum + product.price * x.2.quantity)
        init (l.map (fun e => (e.1.id, e.2))) =
        init + (l.map (fun e => e.1.price * e.2.quantity)).sum by
    have hz := h enriched 0 hfind
    unfold calculateTotal
    rw [hz]
    omega
  intro l
  induction l with
  | nil => intro init _; simp
  | cons e rest ihl =>
    intro init hf
    rw [List.map_cons, List.foldl_cons]
    dsimp only
    rw [hf e (List.mem_cons_self e rest)]
    dsimp only
    rw [ihl _ (fun e2 he2 => hf e2 (List.mem_cons_of_mem e he2))]
    rw [List.map_cons, List.sum_cons]
    ring

/-- Claim C2: completing a sale whose line items are each valid against the
loaded snapshot, with pairwise distinct product ids, creates exactly one new
inflow Transaction whose amount is the sum of price times quantity over the
line items, and decrements each targeted variant quantity, or standalone
product quantity when no variant is selected, by exactly the sold quantity;
spec-modelled wiring: the single onAddTransaction callback is forwarded to
the Ledger by the parent component, which is not among the provided
sources. -/
theorem completeSale_spec (snapshot : List Product)
    (enriched : List (Product × SaleLine)) (paymentMethod : String)
    (st : AppState) (txId : String) (now : Int)
    (hne : enriched ≠ [])
    (hsync : st.products = snapshot)
    (hnodup : (enriched.map (fun e => e.1.id)).Nodup)
    (hok : ∀ e ∈ enriched, lineOk snapshot e) :
    ∃ tx st1,
      completeSale snapshot (enriched.map (fun e => (e.1.id, e.2)))
        paymentMethod st txId now = .ok (some tx, st1) ∧
      tx.type = .inflow ∧
      tx.amount = (enriched.map (fun e => e.1.price * e.2.quantity)).sum ∧
      st1.transactions = st.transactions ++ [tx] ∧
      (∀ e ∈ enriched, lineDecremented st1.products e) := by
  obtain ⟨ps2, hps, hdec, _⟩ := processSaleItems_spec snapshot now enriched
    st.products hnodup hok (fun e he => by rw [hsync]; exact (hok e he).1)
  unfold completeSale
  rw [if_neg (by simp [hne])]
  rw [hps]
  dsimp only
  unfold addTransaction
  dsimp only
  refine ⟨_, _, rfl, rfl, ?_, rfl, ?_⟩
  · exact calculateTotal_eq snapshot enriched (fun e he => (hok e he).1)
  · exact hdec

def wSaleLine : SaleLine :=
  { quantity := 2, selectedVariantId := some "v1" }

def wSaleState : AppState :=
  { products := [wProduct], transactions := [], debts := [], bills := [] }

/-- Witness for claim C2, the worked example of the spec: selling two units
of the S variant of a 20-priced Shirt yields one inflow transaction of 40 and
the variant stock drops from 5 to 3. -/
theorem completeSale_spec_witness :
    ∃ tx st1,
      completeSale [wProduct]
        ([((wProduct, wSaleLine) : Product × SaleLine)].map (fun e => (e.1.id, e.2)))
        "Efectivo" wSaleState "tx1" 9 = .ok (some tx, st1) ∧
      tx.type = .inflow ∧
      tx.amount = ([((wProduct, wSaleLine) : Product × SaleLine)].map
        (fun e => e.1.price * e.2.quantity)).sum ∧
      st1.transactions = wSaleState.transactions ++ [tx] ∧
      (∀ e ∈ [((wProduct, wSaleLine) : Product × SaleLine)],
        lineDecremented st1.products e) :=
  completeSale_spec [wProduct] [(wProduct, wSaleLine)] "Efectivo" wSaleState
    "tx1" 9 (by simp) rfl (by decide)
    (by
      intro e he
      rw [List.mem_singleton] at he
      subst he
      exact ⟨by decide, by decide,
        Or.inr ⟨"v1", wVariant, rfl, by decide, by decide⟩⟩)

/-- Witness for claim C6 on a concrete collection holding a past-due pending
debt and a paid debt. -/
theorem getAllDebts_overdue_derivation_witness :
    { wDebt with status := DebtStatus.overdue } ∈ getAllDebts [wDebt, wPaidDebt] 10 {} ∧
    getAllDebts (getAllDebts [wDebt, wPaidDebt] 10 {}) 10 {} =
      getAllDebts [wDebt, wPaidDebt] 10 {} :=
  getAllDebts_overdue_derivation [wDebt, wPaidDebt] 10 wDebt (by decide) rfl
    (by decide)

end Shop
